import Mathlib

/-!
Verification of the petal backend cache + background-processing pipeline.

Shallow embedding of:
  * `app/services/cache.py`      (`RedisCache`, `SessionCache`, `EmbeddingCache`)
  * `app/services/embeddings.py` (`EmbeddingService.create_embedding`)
  * `app/services/sessions.py`   (`SessionService.save_memory`)
  * `app/routes/memories.py`     (`smart_copy`)
  * `app/services/task_queue.py` (`BackgroundTaskQueue`)

Conventions of the embedding:
  * The Redis backend is a logical clock plus an association list from keys to
    entries carrying an absolute expiry time (`SETEX key ttl value` stores
    expiry `now + ttl`; `GET` returns the value only while `now < expiresAt`).
  * Every low-level Redis client call can independently fail with a connection
    error / timeout; the caller passes a `NetOutcome` that says whether this
    particular client call succeeds.  The Python `try/except` blocks around
    each client call are embedded by matching on this outcome.
  * Python truthiness is made explicit: a `bytes`/`str` value is truthy iff it
    is non-empty, a list is truthy iff it is non-empty, `None` is falsy.
  * Exceptions of fallible collaborators are `Except String` values.
-/

/-- Outcome of a single network call to the Redis backend: either the call
goes through, or it raises a connection error / timeout which the Python
code catches. -/
inductive NetOutcome
  | ok
  | fail
deriving DecidableEq, Repr

/-- A stored Redis entry: the value (a byte string) and its absolute expiry
time.  All writes performed by this code base go through `SETEX`, so every
entry carries an expiry. -/
structure REntry where
  value : String
  expiresAt : Nat
deriving DecidableEq, Repr

/-- State of `RedisCache` (`cache.py`, lines 12-36): the `enabled` flag set by
the constructor's ping, the backend's key space, and a logical clock used to
model TTL expiry. -/
structure RedisState where
  enabled : Bool
  data : List (String × REntry)
  now : Nat
deriving DecidableEq, Repr

/-- `RedisCache.__init__` (`cache.py` 15-36): ping the backend once; if the
ping fails, flip to a disabled state for the remainder of the process. -/
def RedisCache.initState (pingOk : Bool) : RedisState :=
  { enabled := pingOk, data := [], now := 0 }

/-- Advance the backend's logical clock by `d` seconds (models a simulated
clock advance between two API calls). -/
def advanceClock (st : RedisState) (d : Nat) : RedisState :=
  { st with now := st.now + d }

/-- Association-list update used to model `SETEX` overwriting a key. -/
def kvSet (data : List (String × REntry)) (key : String) (e : REntry) :
    List (String × REntry) :=
  (key, e) :: data.filter (fun p => p.1 ≠ key)

/-- Association-list removal used to model `DEL key`. -/
def kvDelete (data : List (String × REntry)) (key : String) :
    List (String × REntry) :=
  data.filter (fun p => p.1 ≠ key)

/-- `RedisCache.get` (`cache.py` 38-52).  Returns `none` when caching is
disabled, when the client call raises (caught, logged, `return None`), when
the key is absent or expired, and also when the stored value is falsy
(`if value:` on the empty byte string). -/
def RedisCache.get (st : RedisState) (net : NetOutcome) (key : String) :
    Option String :=
  if !st.enabled then none
  else
    match net with
    | .fail => none
    | .ok =>
      match st.data.lookup key with
      | some e => if st.now < e.expiresAt ∧ e.value ≠ "" then some e.value else none
      | none => none

/-- `RedisCache.set` (`cache.py` 54-65).  `self.client.setex(key, ttl, value)`;
the Python signature has default `ttl_seconds = 3600`, callers that omit the
argument pass `3600` here.  Returns the success flag and the new backend
state. -/
def RedisCache.set (st : RedisState) (net : NetOutcome) (key value : String)
    (ttl_seconds : Nat) : Bool × RedisState :=
  if !st.enabled then (false, st)
  else
    match net with
    | .fail => (false, st)
    | .ok =>
      (true, { st with data := kvSet st.data key ⟨value, st.now + ttl_seconds⟩ })

/-- `RedisCache.delete` (`cache.py` 67-78). -/
def RedisCache.delete (st : RedisState) (net : NetOutcome) (key : String) :
    Bool × RedisState :=
  if !st.enabled then (false, st)
  else
    match net with
    | .fail => (false, st)
    | .ok => (true, { st with data := kvDelete st.data key })

/-- Redis `KEYS`-style glob matching on character lists, restricted to the
metacharacters `*`, `?` and backslash escape.  `*` is embedded by its
standard characterization (the rest of the pattern matches some suffix of
the string), which is extensionally the backtracking loop of Redis's
matcher.  (Character classes are not modelled; the patterns built by this
code base are a literal followed by a single `*`, and the theorems about
`delete_pattern` assume session ids free of glob metacharacters, where this
matcher agrees with Redis.) -/
def globMatch : List Char → List Char → Bool
  | [], s => s.isEmpty
  | c :: ps, s =>
    if c = '*' then s.tails.any (fun t => globMatch ps t)
    else if c = '?' then
      match s with
      | [] => false
      | _ :: ds => globMatch ps ds
    else if c = '\\' then
      match ps with
      | p :: ps' =>
        match s with
        | [] => false
        | d :: ds => p = d && globMatch ps' ds
      | [] =>
        match s with
        | [] => false
        | d :: ds => '\\' = d && globMatch ([] : List Char) ds
    else
      match s with
      | [] => false
      | d :: ds => c = d && globMatch ps ds

/-- `RedisCache.delete_pattern` (`cache.py` 80-93): `KEYS pattern` (which only
returns live, non-expired keys) followed by `DEL` of every returned key. -/
def RedisCache.delete_pattern (st : RedisState) (net : NetOutcome)
    (pat : String) : Bool × RedisState :=
  if !st.enabled then (false, st)
  else
    match net with
    | .fail => (false, st)
    | .ok =>
      (true, { st with
        data := st.data.filter
          (fun p => ¬ (globMatch pat.data p.1.data ∧ st.now < p.2.expiresAt)) })

/-! ### SessionCache (`cache.py` 96-191) -/

/-- `SessionCache._session_key`. -/
def sessionKey (session_id : String) : String :=
  "session:" ++ session_id

/-- `SessionCache._session_memories_key`. -/
def sessionMemoriesKey (session_id : String) : String :=
  "session:" ++ session_id ++ ":memories"

/-- `SessionCache._session_description_key`. -/
def sessionDescriptionKey (session_id : String) : String :=
  "session:" ++ session_id ++ ":description"

/-- `SessionCache.get_session` (`cache.py` 136-145).  The cached JSON payload
is returned verbatim; decoding a hit into a dict is irrelevant to the claims,
which only concern hit versus miss. -/
def SessionCache.get_session (st : RedisState) (net : NetOutcome)
    (session_id : String) : Option String :=
  RedisCache.get st net (sessionKey session_id)

/-- `SessionCache.get_session_memories` (`cache.py` 147-156), payload
verbatim as above. -/
def SessionCache.get_session_memories (st : RedisState) (net : NetOutcome)
    (session_id : String) : Option String :=
  RedisCache.get st net (sessionMemoriesKey session_id)

/-- `SessionCache.get_session_description` (`cache.py` 169-178). -/
def SessionCache.get_session_description (st : RedisState) (net : NetOutcome)
    (session_id : String) : Option String :=
  RedisCache.get st net (sessionDescriptionKey session_id)

/-- `SessionCache.set_session_description` (`cache.py` 180-186).  The body is
`self.cache.set(self._session_description_key(session_id), description)`:
the `ttl_seconds` argument is omitted, so Python supplies `RedisCache.set`'s
default of `3600`. -/
def SessionCache.set_session_description (st : RedisState) (net : NetOutcome)
    (session_id description : String) : RedisState :=
  (RedisCache.set st net (sessionDescriptionKey session_id) description 3600).2

/-- `SessionCache.invalidate_session_memories` (`cache.py` 158-161). -/
def SessionCache.invalidate_session_memories (st : RedisState)
    (net : NetOutcome) (session_id : String) : RedisState :=
  (RedisCache.delete st net (sessionMemoriesKey session_id)).2

/-- `SessionCache.invalidate_session_description` (`cache.py` 188-191). -/
def SessionCache.invalidate_session_description (st : RedisState)
    (net : NetOutcome) (session_id : String) : RedisState :=
  (RedisCache.delete st net (sessionDescriptionKey session_id)).2

/-- `SessionCache.invalidate_session` (`cache.py` 163-167): pattern-delete
`session:{id}:*`, then delete the metadata key `session:{id}`.  Each of the
two client calls carries its own network outcome. -/
def SessionCache.invalidate_session (st : RedisState) (net1 net2 : NetOutcome)
    (session_id : String) : RedisState :=
  let st1 := (RedisCache.delete_pattern st net1 ("session:" ++ session_id ++ ":*")).2
  (RedisCache.delete st1 net2 (sessionKey session_id)).2

/-! ### Claim C1: description-cache TTL -/

/-- **C1** (code bug).  The claim states that `set_session_description` stores
the description with no TTL, so that it is still readable after a simulated
24-hour clock advance.  The code's own docstring agrees ("no TTL - permanent
until invalidated"), but the body calls `RedisCache.set` without a
`ttl_seconds` argument, so the Python default of 3600 seconds applies: the
entry is present immediately after the write, but reading it after a 24-hour
clock advance (with no invalidation call in between) yields a cache miss. -/
theorem c1_description_ttl_expires :
    SessionCache.get_session_description
        (SessionCache.set_session_description (RedisCache.initState true)
          NetOutcome.ok "abc" "hello world")
        NetOutcome.ok "abc" = some "hello world" ∧
      SessionCache.get_session_description
        (advanceClock
          (SessionCache.set_session_description (RedisCache.initState true)
            NetOutcome.ok "abc" "hello world")
          86400)
        NetOutcome.ok "abc" = none := by
  constructor <;> rfl

/-! ### Claim C5: graceful degradation of every KeyValueStore operation -/

/-- **C5** (confirmed).  Every `RedisCache` operation invoked when the backend
connection failed at startup (`enabled = false`) or when the client call hits
a connection error / timeout returns the absent/`false` result instead of
propagating an exception: `get` returns `none`, `set`, `delete` and
`delete_pattern` return `false`, and none of them changes the backend state.
In particular, with the backend down at startup, `get "session:abc"` is
absent and `set` returns `false`. -/
theorem c5_operations_degrade (st : RedisState) (net : NetOutcome)
    (key value pat : String) (ttl : Nat)
    (h : st.enabled = false ∨ net = NetOutcome.fail) :
    RedisCache.get st net key = none ∧
      RedisCache.set st net key value ttl = (false, st) ∧
      RedisCache.delete st net key = (false, st) ∧
      RedisCache.delete_pattern st net pat = (false, st) := by
  rcases h with h | h
  · simp [RedisCache.get, RedisCache.set, RedisCache.delete,
      RedisCache.delete_pattern, h]
  · subst h
    cases hE : st.enabled <;>
      simp [RedisCache.get, RedisCache.set, RedisCache.delete,
        RedisCache.delete_pattern, hE]

/-- Witness for C5: the backend is down at startup (`ping` failed), and
`get "session:abc"` returns absent while `set` returns `false`. -/
theorem c5_operations_degrade_witness :
    (RedisCache.initState false).enabled = false ∧
      RedisCache.get (RedisCache.initState false) NetOutcome.ok "session:abc"
          = none ∧
      (RedisCache.set (RedisCache.initState false) NetOutcome.ok "session:abc"
          "v" 3600).1 = false :=
  ⟨rfl,
    (c5_operations_degrade (RedisCache.initState false) NetOutcome.ok
      "session:abc" "v" "session:*" 3600 (Or.inl rfl)).1,
    by
      have h := (c5_operations_degrade (RedisCache.initState false)
        NetOutcome.ok "session:abc" "v" "session:*" 3600 (Or.inl rfl)).2.1
      rw [h]⟩

/-! ### Helper lemmas: association-list lookups and glob matching -/

/-- A character on which the glob matcher acts literally. -/
def GlobLit (c : Char) : Prop :=
  c ≠ '*' ∧ c ≠ '?' ∧ c ≠ '\\'

instance (c : Char) : Decidable (GlobLit c) := by
  unfold GlobLit; infer_instance

theorem globMatch_star_nil (s : List Char) : globMatch ['*'] s = true := by
  simp [globMatch, List.any_eq_true]

theorem globMatch_lit_append (p q s : List Char)
    (hp : ∀ c ∈ p, GlobLit c) :
    globMatch (p ++ q) (p ++ s) = globMatch q s := by
  induction p with
  | nil => rfl
  | cons c p ih =>
    obtain ⟨h1, h2, h3⟩ := hp c (List.mem_cons_self c p)
    rw [List.cons_append, List.cons_append, globMatch.eq_def]
    simp [h1, h2, h3, ih fun d hd => hp d (List.mem_cons_of_mem c hd)]

theorem lookup_filter_some {data : List (String × REntry)}
    {q : String × REntry → Bool} {k : String} {e : REntry}
    (h : (data.filter q).lookup k = some e) : q (k, e) = true := by
  induction data with
  | nil => simp [List.filter] at h
  | cons hd tl ih =>
    rcases hd with ⟨k', e'⟩
    by_cases hq : q (k', e') = true
    · rw [List.filter_cons_of_pos hq] at h
      by_cases hk : k = k'
      · subst hk
        simp only [List.lookup, beq_self_eq_true] at h
        cases h
        exact hq
      · simp only [List.lookup, beq_eq_false_iff_ne.2 hk] at h
        exact ih h
    · rw [List.filter_cons_of_neg (by simpa using hq)] at h
      exact ih h

theorem lookup_filter_none (data : List (String × REntry))
    (q : String × REntry → Bool) (k : String)
    (h : ∀ e : REntry, q (k, e) = false) :
    (data.filter q).lookup k = none := by
  induction data with
  | nil => rfl
  | cons hd tl ih =>
    rcases hd with ⟨k', e'⟩
    by_cases hq : q (k', e') = true
    · rw [List.filter_cons_of_pos hq]
      by_cases hk : k = k'
      · subst hk
        rw [h e'] at hq
        cases hq
      · simp only [List.lookup, beq_eq_false_iff_ne.2 hk]
        exact ih
    · rw [List.filter_cons_of_neg (by simpa using hq)]
      exact ih

theorem lookup_filter_eq (data : List (String × REntry))
    (q : String × REntry → Bool) (k : String)
    (hk : ∀ e : REntry, q (k, e) = true) :
    (data.filter q).lookup k = data.lookup k := by
  induction data with
  | nil => rfl
  | cons hd tl ih =>
    rcases hd with ⟨k', e'⟩
    by_cases hq : q (k', e') = true
    · rw [List.filter_cons_of_pos hq]
      simp only [List.lookup]
      cases hbe : (k == k') with
      | false => exact ih
      | true => rfl
    · have hne : k ≠ k' := by
        intro hkk
        subst hkk
        rw [hk e'] at hq
        exact hq rfl
      rw [List.filter_cons_of_neg (by simpa using hq)]
      simp only [List.lookup, beq_eq_false_iff_ne.2 hne]
      exact ih

theorem lookup_kvDelete_self (data : List (String × REntry)) (k : String) :
    (kvDelete data k).lookup k = none := by
  apply lookup_filter_none
  intro e
  simp

theorem lookup_kvDelete_ne (data : List (String × REntry)) (k k' : String)
    (h : k' ≠ k) : (kvDelete data k).lookup k' = data.lookup k' := by
  apply lookup_filter_eq
  intro e
  simpa using h

theorem lookup_kvSet_self (data : List (String × REntry)) (k : String)
    (e : REntry) : (kvSet data k e).lookup k = some e := by
  unfold kvSet
  simp [List.lookup]

theorem lookup_kvSet_ne (data : List (String × REntry)) (k k' : String)
    (e : REntry) (h : k' ≠ k) :
    (kvSet data k e).lookup k' = data.lookup k' := by
  unfold kvSet
  simp only [List.lookup, beq_eq_false_iff_ne.2 h]
  apply lookup_filter_eq
  intro e2
  simpa using h

theorem globMatch_lit_star (pre tail : List Char)
    (hpre : ∀ c ∈ pre, GlobLit c) :
    globMatch (pre ++ ['*']) (pre ++ tail) = true := by
  rw [globMatch_lit_append pre ['*'] tail hpre]
  exact globMatch_star_nil tail

theorem sessionMemoriesKey_ne_sessionKey (sid : String) :
    sessionMemoriesKey sid ≠ sessionKey sid := by
  intro h
  have h2 := congrArg String.length h
  rw [sessionMemoriesKey, sessionKey, String.length_append,
    String.length_append] at h2
  have e1 : ("session:" : String).length = 8 := rfl
  have e2 : (":memories" : String).length = 9 := rfl
  rw [e1, e2] at h2
  omega

theorem sessionDescriptionKey_ne_sessionKey (sid : String) :
    sessionDescriptionKey sid ≠ sessionKey sid := by
  intro h
  have h2 := congrArg String.length h
  rw [sessionDescriptionKey, sessionKey, String.length_append,
    String.length_append] at h2
  have e1 : ("session:" : String).length = 8 := rfl
  have e2 : (":description" : String).length = 12 := rfl
  rw [e1, e2] at h2
  omega

theorem sessionDescriptionKey_ne_sessionMemoriesKey (sid : String) :
    sessionDescriptionKey sid ≠ sessionMemoriesKey sid := by
  intro h
  have h2 := congrArg String.length h
  rw [sessionDescriptionKey, sessionMemoriesKey, String.length_append,
    String.length_append, String.length_append, String.length_append] at h2
  have e2 : (":description" : String).length = 12 := rfl
  have e3 : (":memories" : String).length = 9 := rfl
  rw [e2, e3] at h2
  omega

/-- The data of the pattern `session:{sid}:*` splits as a literal part
followed by `*`. -/
theorem sessionPattern_data (sid : String) :
    ("session:" ++ sid ++ ":*").data =
      ("session:".data ++ sid.data ++ [':']) ++ ['*'] := by
  rw [String.data_append, String.data_append]
  have : (":*" : String).data = [':', '*'] := rfl
  rw [this]
  simp

theorem sessionMemoriesKey_data (sid : String) :
    (sessionMemoriesKey sid).data =
      ("session:".data ++ sid.data ++ [':']) ++ "memories".data := by
  rw [sessionMemoriesKey, String.data_append, String.data_append]
  have : (":memories" : String).data = ':' :: "memories".data := rfl
  rw [this]
  simp

theorem sessionDescriptionKey_data (sid : String) :
    (sessionDescriptionKey sid).data =
      ("session:".data ++ sid.data ++ [':']) ++ "description".data := by
  rw [sessionDescriptionKey, String.data_append, String.data_append]
  have : (":description" : String).data = ':' :: "description".data := rfl
  rw [this]
  simp

theorem sessionPattern_lit (sid : String)
    (hsid : ∀ c ∈ sid.data, GlobLit c) :
    ∀ c ∈ "session:".data ++ sid.data ++ [':'], GlobLit c := by
  have hlit : ∀ c ∈ "session:".data, GlobLit c := by decide
  have hcolon : ∀ c ∈ [':'], GlobLit c := by decide
  intro c hc
  rcases List.mem_append.1 hc with hc | hc
  · rcases List.mem_append.1 hc with hc | hc
    · exact hlit c hc
    · exact hsid c hc
  · exact hcolon c hc

theorem delete_pattern_preserves (st : RedisState) (net : NetOutcome)
    (pat : String) :
    ((RedisCache.delete_pattern st net pat).2).enabled = st.enabled ∧
      ((RedisCache.delete_pattern st net pat).2).now = st.now := by
  unfold RedisCache.delete_pattern
  cases hE : st.enabled <;> cases net <;> simp [hE]

/-- After `delete_pattern` succeeds, a `get` of any key matched by the
pattern is a miss (a matched live key was deleted; a matched expired key
fails the expiry check). -/
theorem get_after_delete_pattern (st : RedisState) (pat key : String)
    (hE : st.enabled = true)
    (hmatch : globMatch pat.data key.data = true) :
    RedisCache.get (RedisCache.delete_pattern st NetOutcome.ok pat).2
      NetOutcome.ok key = none := by
  unfold RedisCache.delete_pattern RedisCache.get
  rw [hE]
  simp only [Bool.not_true, Bool.false_eq_true, if_false]
  cases hl : (st.data.filter
      (fun p => ¬ (globMatch pat.data p.1.data ∧ st.now < p.2.expiresAt))).lookup
      key with
  | none => simp [hl]
  | some e =>
    have hq := lookup_filter_some hl
    simp only [decide_eq_true_eq, hmatch, not_and, true_and] at hq
    simp only [hl]
    have : ¬ (st.now < e.expiresAt ∧ e.value ≠ "") := by
      intro hcon
      exact hq hcon.1
    simp [this]

/-- `get` of the deleted key after `delete` is a miss. -/
theorem get_after_delete_self (st : RedisState) (key : String)
    (hE : st.enabled = true) :
    RedisCache.get (RedisCache.delete st NetOutcome.ok key).2
      NetOutcome.ok key = none := by
  unfold RedisCache.delete RedisCache.get
  rw [hE]
  simp [lookup_kvDelete_self]

/-- `delete` of one key does not change `get` of a different key. -/
theorem get_after_delete_ne (st : RedisState) (key key' : String)
    (h : key' ≠ key) :
    RedisCache.get (RedisCache.delete st NetOutcome.ok key).2
      NetOutcome.ok key' = RedisCache.get st NetOutcome.ok key' := by
  unfold RedisCache.delete RedisCache.get
  cases hE : st.enabled with
  | false => simp [hE]
  | true => simp [lookup_kvDelete_ne st.data key key' h]

/-! ### Claim C7: invalidateAll removes metadata, memories, description -/

/-- **C7** (confirmed, for session ids free of glob metacharacters — the ids
this system generates are UUIDs).  After `invalidate_session` completes with
a live cache backend, reads of metadata, memories, and description for that
session are all cache-misses: the pattern delete `session:{id}:*` removes
the memories and description keys, and the subsequent `delete` removes the
metadata key `session:{id}`. -/
theorem c7_invalidate_all_misses (st : RedisState) (sid : String)
    (hE : st.enabled = true)
    (hsid : ∀ c ∈ sid.data, GlobLit c) :
    SessionCache.get_session
        (SessionCache.invalidate_session st NetOutcome.ok NetOutcome.ok sid)
        NetOutcome.ok sid = none ∧
      SessionCache.get_session_memories
        (SessionCache.invalidate_session st NetOutcome.ok NetOutcome.ok sid)
        NetOutcome.ok sid = none ∧
      SessionCache.get_session_description
        (SessionCache.invalidate_session st NetOutcome.ok NetOutcome.ok sid)
        NetOutcome.ok sid = none := by
  have hpres := delete_pattern_preserves st NetOutcome.ok
    ("session:" ++ sid ++ ":*")
  have hE1 : ((RedisCache.delete_pattern st NetOutcome.ok
      ("session:" ++ sid ++ ":*")).2).enabled = true := by
    rw [hpres.1, hE]
  have hmem : globMatch ("session:" ++ sid ++ ":*").data
      (sessionMemoriesKey sid).data = true := by
    rw [sessionPattern_data, sessionMemoriesKey_data]
    exact globMatch_lit_star _ _ (sessionPattern_lit sid hsid)
  have hdesc : globMatch ("session:" ++ sid ++ ":*").data
      (sessionDescriptionKey sid).data = true := by
    rw [sessionPattern_data, sessionDescriptionKey_data]
    exact globMatch_lit_star _ _ (sessionPattern_lit sid hsid)
  refine ⟨?_, ?_, ?_⟩
  · exact get_after_delete_self _ _ hE1
  · rw [SessionCache.get_session_memories, SessionCache.invalidate_session]
    rw [get_after_delete_ne _ _ _ (sessionMemoriesKey_ne_sessionKey sid)]
    exact get_after_delete_pattern st _ _ hE hmem
  · rw [SessionCache.get_session_description, SessionCache.invalidate_session]
    rw [get_after_delete_ne _ _ _ (sessionDescriptionKey_ne_sessionKey sid)]
    exact get_after_delete_pattern st _ _ hE hdesc

/-- Witness for C7: a live backend holding all three entries for session
`abc`; after `invalidate_session` all three reads miss. -/
theorem c7_invalidate_all_misses_witness :
    let st : RedisState :=
      { enabled := true,
        data := [(sessionKey "abc", ⟨"meta", 100⟩),
                 (sessionMemoriesKey "abc", ⟨"mems", 100⟩),
                 (sessionDescriptionKey "abc", ⟨"desc", 100⟩)],
        now := 0 }
    SessionCache.get_session
        (SessionCache.invalidate_session st NetOutcome.ok NetOutcome.ok "abc")
        NetOutcome.ok "abc" = none ∧
      SessionCache.get_session_memories
        (SessionCache.invalidate_session st NetOutcome.ok NetOutcome.ok "abc")
        NetOutcome.ok "abc" = none ∧
      SessionCache.get_session_description
        (SessionCache.invalidate_session st NetOutcome.ok NetOutcome.ok "abc")
        NetOutcome.ok "abc" = none :=
  c7_invalidate_all_misses _ "abc" rfl (by decide)

/-! ### SHA-256 (FIPS 180-4), used by `EmbeddingCache._embedding_key`
(`hashlib.sha256(text.encode('utf-8')).hexdigest()`).  Words are `Nat`s
reduced modulo `2 ^ 32`. -/

def w32 (x : Nat) : Nat := x % 4294967296

def rotr32 (n x : Nat) : Nat := w32 ((x >>> n) ||| (x <<< (32 - n)))

def shr32 (n x : Nat) : Nat := x >>> n

def capSigma0 (x : Nat) : Nat := rotr32 2 x ^^^ rotr32 13 x ^^^ rotr32 22 x

def capSigma1 (x : Nat) : Nat := rotr32 6 x ^^^ rotr32 11 x ^^^ rotr32 25 x

def smlSigma0 (x : Nat) : Nat := rotr32 7 x ^^^ rotr32 18 x ^^^ shr32 3 x

def smlSigma1 (x : Nat) : Nat := rotr32 17 x ^^^ rotr32 19 x ^^^ shr32 10 x

def sha256K : List Nat :=
  [1116352408, 1899447441, 3049323471, 3921009573, 961987163,
   1508970993, 2453635748, 2870763221, 3624381080, 310598401,
   607225278, 1426881987, 1925078388, 2162078206, 2614888103,
   3248222580, 3835390401, 4022224774, 264347078, 604807628,
   770255983, 1249150122, 1555081692, 1996064986, 2554220882,
   2821834349, 2952996808, 3210313671, 3336571891, 3584528711,
   113926993, 338241895, 666307205, 773529912, 1294757372,
   1396182291, 1695183700, 1986661051, 2177026350, 2456956037,
   2730485921, 2820302411, 3259730800, 3345764771, 3516065817,
   3600352804, 4094571909, 275423344, 430227734, 506948616,
   659060556, 883997877, 958139571, 1322822218, 1537002063,
   1747873779, 1955562222, 2024104815, 2227730452, 2361852424,
   2428436474, 2756734187, 3204031479, 3329325298]

def sha256H0 : List Nat :=
  [1779033703, 3144134277, 1013904242, 2773480762,
   1359893119, 2600822924, 528734635, 1541459225]

def bigEndianBytes (n v : Nat) : List Nat :=
  (List.range n).map (fun i => (v >>> (8 * (n - 1 - i))) % 256)

def sha256pad (msg : List Nat) : List Nat :=
  let padZeros := (119 - msg.length % 64) % 64
  msg ++ [0x80] ++ List.replicate padZeros 0 ++ bigEndianBytes 8 (msg.length * 8)

def toBlocks (l : List Nat) : List (List Nat) :=
  (List.range (l.length / 64)).map (fun i => (l.drop (64 * i)).take 64)

def bytesToWord (bs : List Nat) : Nat := bs.foldl (fun a b => a * 256 + b) 0

def blockWords (block : List Nat) : List Nat :=
  (List.range 16).map (fun i => bytesToWord ((block.drop (4 * i)).take 4))

def scheduleExtend (ws : List Nat) : Nat → List Nat
  | 0 => ws
  | n + 1 =>
    let w := scheduleExtend ws n
    let m := w.length
    w ++ [w32 (smlSigma1 (w.getD (m - 2) 0) + w.getD (m - 7) 0 +
      smlSigma0 (w.getD (m - 15) 0) + w.getD (m - 16) 0)]

def chFn (e f g : Nat) : Nat := (e &&& f) ^^^ ((e ^^^ 4294967295) &&& g)

def majFn (a b c : Nat) : Nat := ((a &&& b) ^^^ (a &&& c)) ^^^ (b &&& c)

def compressStep (st : List Nat) (kw : Nat × Nat) : List Nat :=
  match st with
  | [a, b, c, d, e, f, g, h] =>
    let t1 := w32 (h + capSigma1 e + chFn e f g + kw.2 + kw.1)
    let t2 := w32 (capSigma0 a + majFn a b c)
    [w32 (t1 + t2), a, b, c, w32 (d + t1), e, f, g]
  | other => other

def compressBlock (hs : List Nat) (block : List Nat) : List Nat :=
  let ws := scheduleExtend (blockWords block) 48
  let st := (ws.zip sha256K).foldl compressStep hs
  (hs.zip st).map (fun p => w32 (p.1 + p.2))

def sha256words (msg : List Nat) : List Nat :=
  (toBlocks (sha256pad msg)).foldl compressBlock sha256H0

def toHex32 (x : Nat) : List Char :=
  (List.range 8).map (fun i => Nat.digitChar ((x >>> (4 * (7 - i))) % 16))

/-- UTF-8 encoding of one character (`str.encode('utf-8')`). -/
def utf8Bytes (c : Char) : List Nat :=
  let n := c.toNat
  if n < 0x80 then [n]
  else if n < 0x800 then [0xC0 ||| (n >>> 6), 0x80 ||| (n &&& 0x3F)]
  else if n < 0x10000 then
    [0xE0 ||| (n >>> 12), 0x80 ||| ((n >>> 6) &&& 0x3F), 0x80 ||| (n &&& 0x3F)]
  else
    [0xF0 ||| (n >>> 18), 0x80 ||| ((n >>> 12) &&& 0x3F),
     0x80 ||| ((n >>> 6) &&& 0x3F), 0x80 ||| (n &&& 0x3F)]

def strBytes (s : String) : List Nat :=
  s.data.foldr (fun c acc => utf8Bytes c ++ acc) []

/-- `hashlib.sha256(s.encode('utf-8')).hexdigest()`. -/
def sha256hex (s : String) : String :=
  String.mk ((sha256words (strBytes s)).foldl (fun acc w => acc ++ toHex32 w) [])

/-- FIPS 180-4 test vector. -/
theorem sha256hex_abc :
    sha256hex "abc" =
      "ba7816bf8f01cfea414140de5dae2223b00361a396177a9cb410ff61f20015ad" := by
  decide

/-- FIPS 180-4 test vector (empty message). -/
theorem sha256hex_empty :
    sha256hex "" =
      "e3b0c44298fc1c149afbf4c8996fb92427ae41e4649b934ca495991b7852b855" := by
  decide

/-! ### JSON serialization of embedding vectors

The code stores vectors with `json.dumps(embedding)` and reads them back
with `json.loads(cached)`.  Vector components are modelled as integers (the
claims perform no arithmetic on them); `json.dumps` of a list uses the
separator `", "`.  `decodeVec` parses exactly the encodings this code
writes, returning `none` on any other payload, which embeds the caught
`json.loads` failure path. -/

def encNatChars (m : Nat) : List Char :=
  if m = 0 then ['0'] else (Nat.digits 10 m).reverse.map Nat.digitChar

def encIntChars : Int → List Char
  | .ofNat m => encNatChars m
  | .negSucc m => '-' :: encNatChars (m + 1)

def encItems : List Int → List Char
  | [] => []
  | [x] => encIntChars x
  | x :: xs => encIntChars x ++ ',' :: ' ' :: encItems xs

def encVecChars (v : List Int) : List Char :=
  '[' :: encItems v ++ [']']

/-- `json.dumps` of a vector. -/
def encodeVec (v : List Int) : String :=
  String.mk (encVecChars v)

def charDigit (c : Char) : Nat := c.toNat - 48

def parseNatAux (acc : Nat) : List Char → Nat × List Char
  | c :: cs =>
    if c.isDigit then parseNatAux (acc * 10 + charDigit c) cs else (acc, c :: cs)
  | [] => (acc, [])

def parseIntChars : List Char → Option (Int × List Char)
  | [] => none
  | c :: cs =>
    if c = '-' then
      match cs with
      | d :: _ =>
        if d.isDigit then
          let p := parseNatAux 0 cs
          some (-(p.1 : Int), p.2)
        else none
      | [] => none
    else if c.isDigit then
      let p := parseNatAux 0 (c :: cs)
      some ((p.1 : Int), p.2)
    else none

def parseItems : Nat → List Char → Option (List Int)
  | 0, _ => none
  | fuel + 1, cs =>
    match parseIntChars cs with
    | none => none
    | some (n, rest) =>
      match rest with
      | ']' :: rest' => if rest' = [] then some [n] else none
      | ',' :: ' ' :: more =>
        match parseItems fuel more with
        | some v => some (n :: v)
        | none => none
      | _ => none

def decodeVecChars : List Char → Option (List Int)
  | '[' :: body => if body = [']'] then some [] else parseItems body.length body
  | _ => none

/-- `json.loads` of a stored vector payload (`none` embeds a raised and
caught decode error). -/
def decodeVec (s : String) : Option (List Int) :=
  decodeVecChars s.data

theorem charDigit_digitChar (d : Nat) (h : d < 10) :
    charDigit (Nat.digitChar d) = d := by
  interval_cases d <;> rfl

theorem isDigit_digitChar (d : Nat) (h : d < 10) :
    (Nat.digitChar d).isDigit = true := by
  interval_cases d <;> rfl

theorem encNatChars_digits (m : Nat) :
    ∀ c ∈ encNatChars m, c.isDigit = true := by
  unfold encNatChars
  by_cases h : m = 0
  · simp [h]
  · simp only [h, if_false]
    intro c hc
    rcases List.mem_map.1 hc with ⟨d, hd, rfl⟩
    exact isDigit_digitChar d
      (Nat.digits_lt_base (by norm_num) (List.mem_reverse.1 hd))

theorem encNatChars_ne_nil (m : Nat) : encNatChars m ≠ [] := by
  unfold encNatChars
  by_cases h : m = 0
  · simp [h]
  · simp only [h, if_false]
    intro hcon
    rw [List.map_eq_nil_iff, List.reverse_eq_nil_iff] at hcon
    exact Nat.digits_ne_nil_iff_ne_zero.2 h hcon

theorem parseNatAux_digits (ds : List Char) (hd : ∀ c ∈ ds, c.isDigit = true) :
    ∀ (rest : List Char) (acc : Nat),
      parseNatAux acc (ds ++ rest) =
        parseNatAux (ds.foldl (fun a c => a * 10 + charDigit c) acc) rest := by
  induction ds with
  | nil => intro rest acc; rfl
  | cons c cs ih =>
    intro rest acc
    rw [List.cons_append, parseNatAux]
    rw [if_pos (hd c (List.mem_cons_self c cs))]
    rw [ih (fun d hdm => hd d (List.mem_cons_of_mem c hdm)) rest]
    rfl

theorem parseNatAux_stop (acc : Nat) (rest : List Char)
    (h : rest = [] ∨ ∃ c cs, rest = c :: cs ∧ c.isDigit = false) :
    parseNatAux acc rest = (acc, rest) := by
  rcases h with rfl | ⟨c, cs, rfl, hc⟩
  · rfl
  · rw [parseNatAux, if_neg (by simp [hc])]

theorem foldl_digitChars (l : List Nat) (hl : ∀ d ∈ l, d < 10) :
    ∀ acc : Nat,
      (l.map Nat.digitChar).foldl (fun a c => a * 10 + charDigit c) acc =
        acc * 10 ^ l.length + Nat.ofDigits 10 l.reverse := by
  induction l with
  | nil => intro acc; simp
  | cons d ds ih =>
    intro acc
    rw [List.map_cons, List.foldl_cons,
      charDigit_digitChar d (hl d (List.mem_cons_self d ds)),
      ih (fun x hx => hl x (List.mem_cons_of_mem d hx))]
    rw [List.reverse_cons, Nat.ofDigits_append]
    simp [Nat.ofDigits]
    ring

theorem foldl_encNatChars (m : Nat) :
    (encNatChars m).foldl (fun a c => a * 10 + charDigit c) 0 = m := by
  unfold encNatChars
  by_cases h : m = 0
  · simp [h]; rfl
  · simp only [h, if_false]
    have hlt : ∀ d ∈ (Nat.digits 10 m).reverse, d < 10 := by
      intro d hd
      exact Nat.digits_lt_base (by norm_num) (List.mem_reverse.1 hd)
    rw [foldl_digitChars _ hlt 0]
    simp [Nat.ofDigits_digits]

theorem parseNatAux_encNat (m : Nat) (rest : List Char)
    (hrest : rest = [] ∨ ∃ c cs, rest = c :: cs ∧ c.isDigit = false) :
    parseNatAux 0 (encNatChars m ++ rest) = (m, rest) := by
  rw [parseNatAux_digits _ (encNatChars_digits m) rest 0, foldl_encNatChars]
  exact parseNatAux_stop m rest hrest

theorem encNatChars_cons (m : Nat) :
    ∃ c cs, encNatChars m = c :: cs ∧ c.isDigit = true ∧ c ≠ '-' := by
  cases hE : encNatChars m with
  | nil => exact absurd hE (encNatChars_ne_nil m)
  | cons c cs =>
    have hcd : c.isDigit = true :=
      encNatChars_digits m c (hE ▸ List.mem_cons_self c cs)
    refine ⟨c, cs, rfl, hcd, ?_⟩
    intro h
    rw [h] at hcd
    cases hcd

theorem parseIntChars_enc (n : Int) (rest : List Char)
    (hrest : rest = [] ∨ ∃ c cs, rest = c :: cs ∧ c.isDigit = false) :
    parseIntChars (encIntChars n ++ rest) = some (n, rest) := by
  cases n with
  | ofNat m =>
    obtain ⟨c, cs, hc, hcd, hcne⟩ := encNatChars_cons m
    have henc : encIntChars (Int.ofNat m) = encNatChars m := rfl
    rw [henc, hc, List.cons_append]
    simp only [parseIntChars, if_neg hcne, hcd, if_pos, if_true]
    rw [← List.cons_append, ← hc, parseNatAux_encNat m rest hrest]
    rfl
  | negSucc m =>
    have henc : encIntChars (Int.negSucc m) = '-' :: encNatChars (m + 1) := rfl
    obtain ⟨c, cs, hc, hcd, _⟩ := encNatChars_cons (m + 1)
    rw [henc, List.cons_append]
    simp only [parseIntChars, if_pos rfl, hc, List.cons_append, hcd, if_true]
    rw [← List.cons_append, ← hc, parseNatAux_encNat (m + 1) rest hrest]
    simp [Int.negSucc_eq]

theorem notDigit_rbracket : (']' : Char).isDigit = false := rfl

theorem notDigit_comma : (',' : Char).isDigit = false := rfl

theorem parseItems_enc (v : List Int) :
    ∀ fuel : Nat, v ≠ [] → v.length ≤ fuel →
      parseItems fuel (encItems v ++ [']']) = some v := by
  induction v with
  | nil => intro fuel h _; exact absurd rfl h
  | cons x xs ih =>
    intro fuel _ hlen
    cases fuel with
    | zero => simp at hlen
    | succ f =>
      cases xs with
      | nil =>
        rw [show encItems [x] = encIntChars x from rfl, parseItems]
        rw [parseIntChars_enc x [']'] (Or.inr ⟨']', [], rfl, notDigit_rbracket⟩)]
        rfl
      | cons y ys =>
        rw [show encItems (x :: y :: ys) =
          encIntChars x ++ ',' :: ' ' :: encItems (y :: ys) from rfl]
        rw [List.append_assoc, List.cons_append, List.cons_append, parseItems]
        rw [parseIntChars_enc x (',' :: ' ' :: (encItems (y :: ys) ++ [']']))
          (Or.inr ⟨',', _, rfl, notDigit_comma⟩)]
        have hf : (y :: ys).length ≤ f := by
          simp at hlen ⊢
          omega
        simp only [ih f (by simp) hf]

theorem encIntChars_ne_nil (n : Int) : encIntChars n ≠ [] := by
  cases n with
  | ofNat m => exact encNatChars_ne_nil m
  | negSucc m => simp [encIntChars]

theorem encItems_ne_nil (x : Int) (xs : List Int) : encItems (x :: xs) ≠ [] := by
  cases xs with
  | nil =>
    rw [show encItems [x] = encIntChars x from rfl]
    exact encIntChars_ne_nil x
  | cons y ys =>
    rw [show encItems (x :: y :: ys) =
      encIntChars x ++ ',' :: ' ' :: encItems (y :: ys) from rfl]
    simp

theorem encItems_length (x : Int) (xs : List Int) :
    (x :: xs).length ≤ (encItems (x :: xs)).length := by
  induction xs generalizing x with
  | nil =>
    rw [show encItems [x] = encIntChars x from rfl]
    have := encIntChars_ne_nil x
    cases hE : encIntChars x with
    | nil => exact absurd hE this
    | cons c cs => simp
  | cons y ys ih =>
    rw [show encItems (x :: y :: ys) =
      encIntChars x ++ ',' :: ' ' :: encItems (y :: ys) from rfl]
    have h2 := ih y
    simp at h2 ⊢
    omega

/-- `json.loads` is a left inverse of `json.dumps` on vectors. -/
theorem decodeVec_encodeVec (v : List Int) : decodeVec (encodeVec v) = some v := by
  cases v with
  | nil => rfl
  | cons x xs =>
    show decodeVecChars ('[' :: (encItems (x :: xs) ++ [']'])) = some (x :: xs)
    rw [decodeVecChars]
    have hne : encItems (x :: xs) ++ [']'] ≠ [']'] := by
      intro h
      have := congrArg List.length h
      simp at this
      exact encItems_ne_nil x xs this
    rw [if_neg hne]
    apply parseItems_enc (x :: xs) _ (by simp)
    simp only [List.length_append, List.length_cons]
    have := encItems_length x xs
    simp at this ⊢
    omega

theorem encodeVec_ne_empty (v : List Int) : encodeVec v ≠ "" := by
  intro h
  have := congrArg String.data h
  simp [encodeVec, encVecChars] at this

/-! ### EmbeddingCache (`cache.py` 194-230) and
`EmbeddingService.create_embedding` (`embeddings.py` 27-74) -/

/-- `EmbeddingCache._embedding_key` (`cache.py` 201-205):
`f"embed:v1:{hashlib.sha256(text.encode('utf-8')).hexdigest()}"`. -/
def embeddingKey (text : String) : String :=
  "embed:v1:" ++ sha256hex text

/-- `EmbeddingCache.get_embedding` (`cache.py` 207-217): look up the
content-addressed key, `json.loads` a hit (decode failure raises, is caught
and returns `None`). -/
def EmbeddingCache.get_embedding (st : RedisState) (net : NetOutcome)
    (text : String) : Option (List Int) :=
  match RedisCache.get st net (embeddingKey text) with
  | some cached => decodeVec cached
  | none => none

/-- `EmbeddingCache.save_embedding` (`cache.py` 219-230); the Python default
for `ttl_seconds` is `86400` and every caller relies on it. -/
def EmbeddingCache.save_embedding (st : RedisState) (net : NetOutcome)
    (text : String) (embedding : List Int) (ttl_seconds : Nat) : RedisState :=
  (RedisCache.set st net (embeddingKey text) (encodeVec embedding)
    ttl_seconds).2

/-- The truncation at the top of `create_embedding` (`embeddings.py` 41-45):
`text[:30000]` when `len(text) > 30000`. -/
def truncText (text : String) : String :=
  if text.length > 30000 then text.take 30000 else text

/-- Environment of one `create_embedding` call: what the OpenRouter API
would return if invoked, and the network outcomes of the two cache client
calls. -/
structure EmbEnv where
  apiResult : Except String (List Int)
  netGet : NetOutcome
  netSet : NetOutcome

/-- Result of one `create_embedding` call: the returned value or raised
exception, the backend state, and the cumulative count of embedding-provider
invocations. -/
structure EmbOutcome where
  result : Except String (List Int)
  redis : RedisState
  apiCalls : Nat
deriving Repr

/-- `EmbeddingService.create_embedding` (`embeddings.py` 27-74): truncate,
try the cache (`if cached_embedding:` — the Python truthiness test, on which
an empty cached list falls through to the API), call the API on a miss, save
the fresh vector, propagate API failure as a raised exception. -/
def EmbeddingService.create_embedding (env : EmbEnv) (hasCache : Bool)
    (st : RedisState) (apiCalls : Nat) (text : String) : EmbOutcome :=
  let t := truncText text
  let cached := if hasCache then EmbeddingCache.get_embedding st env.netGet t
    else none
  let hit : Option (List Int) :=
    match cached with
    | some v => if v.isEmpty then none else some v
    | none => none
  match hit with
  | some v => { result := Except.ok v, redis := st, apiCalls := apiCalls }
  | none =>
    match env.apiResult with
    | Except.error e =>
      { result := Except.error ("Failed to generate embedding: " ++ e),
        redis := st, apiCalls := apiCalls + 1 }
    | Except.ok embedding =>
      let st2 := if hasCache then
          EmbeddingCache.save_embedding st env.netSet t embedding 86400
        else st
      { result := Except.ok embedding, redis := st2, apiCalls := apiCalls + 1 }

/-! ### Claim C8: content-addressed embedding cache -/

/-- **C8** (counterexample to the claim as stated).  When the provider's
vector is the empty list, the first call does store it under the exact
content-addressed key, but the second call with identical text treats the
cached empty list as falsy (`if cached_embedding:`) and invokes the
embedding provider again: after two calls the provider has been invoked
twice. -/
theorem c8_counterexample :
    let env : EmbEnv := ⟨Except.ok [], NetOutcome.ok, NetOutcome.ok⟩
    let st := RedisCache.initState true
    let r1 := EmbeddingService.create_embedding env true st 0 "t"
    let r2 := EmbeddingService.create_embedding env true r1.redis r1.apiCalls "t"
    r1.redis.data.lookup (embeddingKey "t") = some ⟨"[]", 86400⟩ ∧
      r2.apiCalls = 2 := by
  exact ⟨rfl, rfl⟩

/-- **C8** (amended: the cached vector must be non-empty, which holds for
every real embedding).  The cache is content-addressed under the exact key
`embed:v1:{sha256hex(text)}` of the (truncated) text; with a live backend, a
first call that obtains a non-empty vector from the provider stores it under
that key, and a second call with identical text returns the same vector from
the cache without invoking the provider again, whatever the provider would
now answer. -/
theorem c8_content_addressed_hit (env1 env2 : EmbEnv) (st : RedisState)
    (calls : Nat) (text : String) (v : List Int)
    (hE : st.enabled = true) (hv : v ≠ [])
    (h1 : env1.apiResult = Except.ok v)
    (hg1 : env1.netGet = NetOutcome.ok) (hs1 : env1.netSet = NetOutcome.ok)
    (hg2 : env2.netGet = NetOutcome.ok)
    (hmiss : RedisCache.get st NetOutcome.ok (embeddingKey (truncText text))
      = none) :
    let r1 := EmbeddingService.create_embedding env1 true st calls text
    let r2 := EmbeddingService.create_embedding env2 true r1.redis
      r1.apiCalls text
    embeddingKey text = "embed:v1:" ++ sha256hex text ∧
      r1.result = Except.ok v ∧
      r1.redis.data.lookup (embeddingKey (truncText text)) =
        some ⟨encodeVec v, st.now + 86400⟩ ∧
      r2.result = Except.ok v ∧
      r2.apiCalls = r1.apiCalls ∧
      r2.redis = r1.redis := by
  have hget1 : EmbeddingCache.get_embedding st env1.netGet (truncText text)
      = none := by
    rw [hg1]
    unfold EmbeddingCache.get_embedding
    rw [hmiss]
  have hr1 : EmbeddingService.create_embedding env1 true st calls text =
      { result := Except.ok v,
        redis := EmbeddingCache.save_embedding st NetOutcome.ok
          (truncText text) v 86400,
        apiCalls := calls + 1 } := by
    simp [EmbeddingService.create_embedding, hget1, h1, hs1]
  have hsave : EmbeddingCache.save_embedding st NetOutcome.ok
      (truncText text) v 86400 =
      { st with data := (kvSet st.data (embeddingKey (truncText text))
          (REntry.mk (encodeVec v) (st.now + 86400))) } := by
    simp [EmbeddingCache.save_embedding, RedisCache.set, hE]
  have hlook : (EmbeddingCache.save_embedding st NetOutcome.ok
      (truncText text) v 86400).data.lookup (embeddingKey (truncText text)) =
      some ⟨encodeVec v, st.now + 86400⟩ := by
    rw [hsave]
    exact lookup_kvSet_self st.data (embeddingKey (truncText text)) _
  have hget2 : EmbeddingCache.get_embedding
      (EmbeddingCache.save_embedding st NetOutcome.ok (truncText text) v 86400)
      env2.netGet (truncText text) = some v := by
    rw [hg2]
    unfold EmbeddingCache.get_embedding RedisCache.get
    rw [hsave]
    have harith : st.now < st.now + 86400 := by omega
    simp [lookup_kvSet_self, harith, encodeVec_ne_empty v, decodeVec_encodeVec,
      hE]
  have hvE : v.isEmpty = false := by
    cases v with
    | nil => exact absurd rfl hv
    | cons a as => rfl
  have hr2 : EmbeddingService.create_embedding env2 true
      (EmbeddingCache.save_embedding st NetOutcome.ok (truncText text) v 86400)
      (calls + 1) text =
      { result := Except.ok v,
        redis := EmbeddingCache.save_embedding st NetOutcome.ok
          (truncText text) v 86400,
        apiCalls := calls + 1 } := by
    simp [EmbeddingService.create_embedding, hget2, hvE]
  refine ⟨rfl, ?_, ?_, ?_, ?_, ?_⟩ <;>
    simp only [hr1, hr2, hlook]

/-- Witness for C8's amended theorem: text `t`, provider vector `[1, 2]`,
empty live backend; on the second call the provider would fail, yet the
cached vector is returned. -/
theorem c8_content_addressed_hit_witness :
    let env1 : EmbEnv := ⟨Except.ok [1, 2], NetOutcome.ok, NetOutcome.ok⟩
    let env2 : EmbEnv := ⟨Except.error "provider down", NetOutcome.ok,
      NetOutcome.ok⟩
    let st := RedisCache.initState true
    let r1 := EmbeddingService.create_embedding env1 true st 0 "t"
    let r2 := EmbeddingService.create_embedding env2 true r1.redis
      r1.apiCalls "t"
    embeddingKey "t" = "embed:v1:" ++ sha256hex "t" ∧
      r1.result = Except.ok [1, 2] ∧
      r1.redis.data.lookup (embeddingKey (truncText "t")) =
        some ⟨encodeVec [1, 2], (RedisCache.initState true).now + 86400⟩ ∧
      r2.result = Except.ok [1, 2] ∧
      r2.apiCalls = r1.apiCalls ∧
      r2.redis = r1.redis :=
  c8_content_addressed_hit ⟨Except.ok [1, 2], NetOutcome.ok, NetOutcome.ok⟩
    ⟨Except.error "provider down", NetOutcome.ok, NetOutcome.ok⟩
    (RedisCache.initState true) 0 "t" [1, 2] rfl (by decide) rfl rfl rfl rfl
    rfl

/-! ### Claim C10: falsy stored values and cache misses -/

set_option maxRecDepth 4096 in
/-- **C10** (counterexample to the claim as stated).  For a stored empty
list, `EmbeddingCache.get_embedding` does not return the miss result `None`:
the stored payload `"[]"` is a truthy string, so `json.loads` runs and the
empty list itself is returned. -/
theorem c10_counterexample :
    EmbeddingCache.get_embedding
      { enabled := true, data := [(embeddingKey "t", ⟨"[]", 100⟩)], now := 0 }
      NetOutcome.ok "t" = some [] ∧
      (some ([] : List Int) ≠ (none : Option (List Int))) := by
  exact ⟨by decide, by simp⟩

/-- **C10** (amended).  A stored empty string is reported absent by
`RedisCache.get` (the `if value:` truthiness test), making it
indistinguishable from a miss.  A stored empty list, however, is returned by
`EmbeddingCache.get_embedding` as `some []` — not the miss result — and only
the truthiness test of its caller `create_embedding` treats it like a miss
and invokes the provider. -/
theorem c10_falsy_values (st st2 : RedisState) (key text : String)
    (e : REntry) (exp calls : Nat) (env : EmbEnv)
    (hE : st.enabled = true) (hlook : st.data.lookup key = some e)
    (hval : e.value = "")
    (hE2 : st2.enabled = true)
    (hlook2 : st2.data.lookup (embeddingKey (truncText text)) =
      some ⟨"[]", exp⟩)
    (hexp : st2.now < exp)
    (hgn : env.netGet = NetOutcome.ok) :
    RedisCache.get st NetOutcome.ok key = none ∧
      EmbeddingCache.get_embedding st2 NetOutcome.ok (truncText text) =
        some [] ∧
      (EmbeddingService.create_embedding env true st2 calls text).apiCalls =
        calls + 1 := by
  have hget : EmbeddingCache.get_embedding st2 NetOutcome.ok (truncText text)
      = some [] := by
    unfold EmbeddingCache.get_embedding RedisCache.get
    rw [hE2]
    simp only [Bool.not_true, Bool.false_eq_true, if_false]
    rw [hlook2]
    have hcond : st2.now < exp ∧ ("[]" : String) ≠ "" := ⟨hexp, by simp⟩
    simp only [if_pos hcond]
    rfl
  refine ⟨?_, hget, ?_⟩
  · unfold RedisCache.get
    rw [hE]
    simp [hlook, hval]
  · cases henv : env.apiResult with
    | error e => simp [EmbeddingService.create_embedding, hgn, hget, henv]
    | ok emb => simp [EmbeddingService.create_embedding, hgn, hget, henv]

/-- Witness for C10's amended theorem: a backend holding an empty string
under `k` and the payload `"[]"` under the embedding key of `t`. -/
theorem c10_falsy_values_witness :
    RedisCache.get
        { enabled := true, data := [("k", ⟨"", 100⟩)], now := 0 }
        NetOutcome.ok "k" = none ∧
      EmbeddingCache.get_embedding
        { enabled := true, data := [(embeddingKey (truncText "t"), ⟨"[]", 100⟩)],
          now := 0 }
        NetOutcome.ok (truncText "t") = some [] ∧
      (EmbeddingService.create_embedding ⟨Except.ok [5], NetOutcome.ok,
        NetOutcome.ok⟩ true
        { enabled := true, data := [(embeddingKey (truncText "t"), ⟨"[]", 100⟩)],
          now := 0 }
        7 "t").apiCalls = 7 + 1 :=
  c10_falsy_values
    { enabled := true, data := [("k", ⟨"", 100⟩)], now := 0 }
    { enabled := true, data := [(embeddingKey (truncText "t"), ⟨"[]", 100⟩)],
      now := 0 }
    "k" "t" ⟨"", 100⟩ 100 7 ⟨Except.ok [5], NetOutcome.ok, NetOutcome.ok⟩
    rfl rfl rfl rfl rfl (by decide) rfl

/-! ### `SessionService.save_memory` (`sessions.py` 135-168) and the
synchronous Smart Copy route `smart_copy` (`memories.py` 107-177) -/

/-- A row of the `session_memories` table.  `id` is the datastore-assigned
identifier (modelled as the row's position); `embedding` is absent when the
route passed `None` (or a falsy empty list, by the `if embedding:` test in
`save_memory`). -/
structure MemoryRecord where
  id : Nat
  session_id : String
  user_id : String
  original_text : String
  processed_text : String
  source : Option String
  embedding : Option (List Int)
deriving DecidableEq, Repr

/-- `SessionService.save_memory` (`sessions.py` 135-168).  The
`processed_text` argument it receives from `smart_copy` is the raw slot of
`asyncio.gather(..., return_exceptions=True)`, which `smart_copy` forwards
without an exception check, so it is either the summarized string or the
exception object of a failed summarization.  In the latter case the
datastore client's JSON serialization of the row raises (an exception object
is not serializable), the `except` clause catches and re-raises
`Failed to save memory: ...`.  A successful insert appends the row; the
supabase client returns the inserted row (`response.data[0]`). -/
def SessionService.save_memory (db : List MemoryRecord)
    (session_id user_id original_text : String)
    (processed : Except String String) (source : Option String)
    (embedding : Option (List Int)) :
    Except String (List MemoryRecord × MemoryRecord) :=
  match processed with
  | Except.error e => Except.error ("Failed to save memory: " ++ e)
  | Except.ok p =>
    let row : MemoryRecord :=
      { id := db.length,
        session_id := session_id,
        user_id := user_id,
        original_text := original_text,
        processed_text := p,
        source := source,
        embedding :=
          match embedding with
          | some v => if v.isEmpty then none else some v
          | none => none }
    Except.ok (db ++ [row], row)

/-- The request body of `POST /smart-copy` (`SmartCopyRequest`). -/
structure SCRequest where
  text : String
  session_id : String
  user_id : String
  source : Option String
deriving DecidableEq, Repr

/-- `SmartCopyResponse` (`models.py`). -/
structure SmartCopyResponse where
  status : String
  memory_id : Nat
  original_length : Nat
  processed_length : Nat
  processed_text : String
deriving DecidableEq, Repr

/-- Outcome of the route: a response or an `HTTPException`. -/
inductive SCResult
  | resp (r : SmartCopyResponse)
  | httpError (code : Nat) (detail : String)
deriving DecidableEq, Repr

/-- Environment of one `smart_copy` call: the summarization outcome
(`claude_service.process_text`), the embedding leg's environment, and the
network outcomes of the two cache invalidation client calls. -/
structure SCEnv where
  claudeResult : Except String String
  embedEnv : EmbEnv
  netDelMem : NetOutcome
  netDelDesc : NetOutcome

/-- `smart_copy` (`memories.py` 107-177).  The two legs of
`asyncio.gather(..., return_exceptions=True)` are the summarization call and
`create_embedding`; `results[1]` is exception-checked (`embedding = None` on
failure) but `results[0]` is forwarded to `save_memory` unchecked.  On a
successful insert the route invalidates the memories cache, then the
description cache, and returns the response; any raised exception becomes an
HTTP 500.  Returns (result, cache state, provider-invocation count,
datastore rows). -/
def smart_copy (env : SCEnv) (hasCache : Bool) (st : RedisState)
    (apiCalls : Nat) (db : List MemoryRecord) (req : SCRequest) :
    SCResult × RedisState × Nat × List MemoryRecord :=
  let emb := EmbeddingService.create_embedding env.embedEnv hasCache st
    apiCalls req.text
  let processed := env.claudeResult
  let embedding : Option (List Int) :=
    match emb.result with
    | Except.ok v => some v
    | Except.error _ => none
  match SessionService.save_memory db req.session_id req.user_id req.text
      processed req.source embedding with
  | Except.error e =>
    (SCResult.httpError 500 ("Smart copy failed: " ++ e), emb.redis,
      emb.apiCalls, db)
  | Except.ok (db2, mem) =>
    let st2 := SessionCache.invalidate_session_memories emb.redis
      env.netDelMem req.session_id
    let st3 := SessionCache.invalidate_session_description st2
      env.netDelDesc req.session_id
    (SCResult.resp
      { status := "saved",
        memory_id := mem.id,
        original_length := req.text.length,
        processed_length := mem.processed_text.length,
        processed_text := mem.processed_text }, st3, emb.apiCalls, db2)

/-! ### Key-space disjointness of the `embed:v1:` and `session:` namespaces -/

theorem embeddingKey_head (t : String) :
    (embeddingKey t).data.head? = some 'e' := by
  rw [embeddingKey, String.data_append]
  rfl

theorem sessionKey_head (sid : String) :
    (sessionKey sid).data.head? = some 's' := by
  rw [sessionKey, String.data_append]
  rfl

theorem sessionMemoriesKey_head (sid : String) :
    (sessionMemoriesKey sid).data.head? = some 's' := by
  rw [sessionMemoriesKey, String.data_append, String.data_append]
  rfl

theorem sessionDescriptionKey_head (sid : String) :
    (sessionDescriptionKey sid).data.head? = some 's' := by
  rw [sessionDescriptionKey, String.data_append, String.data_append]
  rfl

theorem embeddingKey_ne_sessionMemoriesKey (t sid : String) :
    sessionMemoriesKey sid ≠ embeddingKey t := by
  intro h
  have h2 := congrArg (fun s : String => s.data.head?) h
  simp only [embeddingKey_head, sessionMemoriesKey_head] at h2
  cases h2

theorem embeddingKey_ne_sessionDescriptionKey (t sid : String) :
    sessionDescriptionKey sid ≠ embeddingKey t := by
  intro h
  have h2 := congrArg (fun s : String => s.data.head?) h
  simp only [embeddingKey_head, sessionDescriptionKey_head] at h2
  cases h2

/-! ### What `create_embedding` does to the backend state -/

theorem save_embedding_preserves (st : RedisState) (net : NetOutcome)
    (t : String) (emb : List Int) (ttl : Nat) :
    (EmbeddingCache.save_embedding st net t emb ttl).enabled = st.enabled ∧
      (EmbeddingCache.save_embedding st net t emb ttl).now = st.now := by
  unfold EmbeddingCache.save_embedding RedisCache.set
  cases hE : st.enabled <;> cases net <;> simp [hE]

/-- The backend state after `create_embedding` is either untouched or the
result of one `save_embedding` of the truncated text. -/
theorem create_embedding_redis (env : EmbEnv) (hasCache : Bool)
    (st : RedisState) (calls : Nat) (text : String) :
    (EmbeddingService.create_embedding env hasCache st calls text).redis = st ∨
      ∃ emb, (EmbeddingService.create_embedding env hasCache st calls
          text).redis =
        EmbeddingCache.save_embedding st env.netSet (truncText text) emb
          86400 := by
  unfold EmbeddingService.create_embedding
  cases hc : (if hasCache then
      EmbeddingCache.get_embedding st env.netGet (truncText text) else none) with
  | none =>
    simp only [hc]
    cases ha : env.apiResult with
    | error e => simp
    | ok emb =>
      cases hcache : hasCache with
      | false => simp
      | true =>
        right
        exact ⟨emb, rfl⟩
  | some v =>
    simp only [hc]
    cases hv : v.isEmpty with
    | true =>
      simp only [if_true]
      cases ha : env.apiResult with
      | error e => simp
      | ok emb =>
        cases hcache : hasCache with
        | false => simp
        | true =>
          right
          exact ⟨emb, rfl⟩
    | false => simp

theorem create_embedding_preserves (env : EmbEnv) (hasCache : Bool)
    (st : RedisState) (calls : Nat) (text : String) :
    (EmbeddingService.create_embedding env hasCache st calls
        text).redis.enabled = st.enabled ∧
      (EmbeddingService.create_embedding env hasCache st calls
        text).redis.now = st.now := by
  rcases create_embedding_redis env hasCache st calls text with h | ⟨emb, h⟩
  · rw [h]
    exact ⟨rfl, rfl⟩
  · rw [h]
    exact save_embedding_preserves st env.netSet (truncText text) emb 86400

/-- A `save_embedding` leaves every `session:`-namespace read unchanged. -/
theorem session_reads_after_save_embedding (st : RedisState)
    (netS net : NetOutcome) (t : String) (emb : List Int) (ttl : Nat)
    (sid : String) :
    SessionCache.get_session_memories
        (EmbeddingCache.save_embedding st netS t emb ttl) net sid =
      SessionCache.get_session_memories st net sid ∧
    SessionCache.get_session_description
        (EmbeddingCache.save_embedding st netS t emb ttl) net sid =
      SessionCache.get_session_description st net sid := by
  have hm := fun e : REntry => lookup_kvSet_ne st.data (embeddingKey t)
    (sessionMemoriesKey sid) e (embeddingKey_ne_sessionMemoriesKey t sid)
  have hd := fun e : REntry => lookup_kvSet_ne st.data (embeddingKey t)
    (sessionDescriptionKey sid) e (embeddingKey_ne_sessionDescriptionKey t sid)
  unfold EmbeddingCache.save_embedding RedisCache.set
  cases hE : st.enabled with
  | false => simp [hE]
  | true =>
    cases netS with
    | fail => simp
    | ok =>
      constructor
      · unfold SessionCache.get_session_memories RedisCache.get
        cases net with
        | fail => simp [hE]
        | ok => simp [hE, hm]
      · unfold SessionCache.get_session_description RedisCache.get
        cases net with
        | fail => simp [hE]
        | ok => simp [hE, hd]

/-- The embedding leg of `smart_copy` changes no `session:`-namespace cache
read. -/
theorem create_embedding_session_reads (env : EmbEnv) (hasCache : Bool)
    (st : RedisState) (calls : Nat) (text : String) (net : NetOutcome)
    (sid : String) :
    SessionCache.get_session_memories
        (EmbeddingService.create_embedding env hasCache st calls text).redis
        net sid =
      SessionCache.get_session_memories st net sid ∧
    SessionCache.get_session_description
        (EmbeddingService.create_embedding env hasCache st calls text).redis
        net sid =
      SessionCache.get_session_description st net sid := by
  rcases create_embedding_redis env hasCache st calls text with h | ⟨emb, h⟩
  · rw [h]
    exact ⟨rfl, rfl⟩
  · rw [h]
    exact session_reads_after_save_embedding st env.netSet net
      (truncText text) emb 86400 sid

theorem delete_preserves (st : RedisState) (net : NetOutcome) (k : String) :
    ((RedisCache.delete st net k).2).enabled = st.enabled ∧
      ((RedisCache.delete st net k).2).now = st.now := by
  unfold RedisCache.delete
  cases hE : st.enabled <;> cases net <;> simp [hE]

/-- The embedding value `smart_copy` hands to `save_memory`, after
`save_memory`'s own `if embedding:` truthiness test: the vector when the
embedding leg succeeded with a non-empty vector, absent otherwise. -/
def scEmbedding (env : SCEnv) (hasCache : Bool) (st : RedisState)
    (apiCalls : Nat) (req : SCRequest) : Option (List Int) :=
  match (EmbeddingService.create_embedding env.embedEnv hasCache st apiCalls
      req.text).result with
  | Except.ok v => if v.isEmpty then none else some v
  | Except.error _ => none

/-- Evaluation of `smart_copy` when summarization succeeds: the row is
persisted, then the memories cache and then the description cache are
invalidated, and the response is returned. -/
theorem smart_copy_success_eq (env : SCEnv) (hasCache : Bool)
    (st : RedisState) (calls : Nat) (db : List MemoryRecord) (req : SCRequest)
    (p : String) (hclaude : env.claudeResult = Except.ok p) :
    smart_copy env hasCache st calls db req =
      (SCResult.resp
        { status := "saved",
          memory_id := db.length,
          original_length := req.text.length,
          processed_length := p.length,
          processed_text := p },
        SessionCache.invalidate_session_description
          (SessionCache.invalidate_session_memories
            (EmbeddingService.create_embedding env.embedEnv hasCache st calls
              req.text).redis
            env.netDelMem req.session_id)
          env.netDelDesc req.session_id,
        (EmbeddingService.create_embedding env.embedEnv hasCache st calls
          req.text).apiCalls,
        db ++
          [{ id := db.length,
             session_id := req.session_id,
             user_id := req.user_id,
             original_text := req.text,
             processed_text := p,
             source := req.source,
             embedding := scEmbedding env hasCache st calls req }]) := by
  simp only [smart_copy, SessionService.save_memory, scEmbedding, hclaude]
  cases hres : (EmbeddingService.create_embedding env.embedEnv hasCache st
      calls req.text).result with
  | ok v => rfl
  | error er => rfl

/-- Evaluation of `smart_copy` when summarization fails: the exception
object is forwarded to `save_memory`, whose insert raises; the route returns
HTTP 500, the datastore is unchanged, and no invalidation runs. -/
theorem smart_copy_failure_eq (env : SCEnv) (hasCache : Bool)
    (st : RedisState) (calls : Nat) (db : List MemoryRecord) (req : SCRequest)
    (e : String) (hclaude : env.claudeResult = Except.error e) :
    smart_copy env hasCache st calls db req =
      (SCResult.httpError 500
        ("Smart copy failed: " ++ ("Failed to save memory: " ++ e)),
        (EmbeddingService.create_embedding env.embedEnv hasCache st calls
          req.text).redis,
        (EmbeddingService.create_embedding env.embedEnv hasCache st calls
          req.text).apiCalls,
        db) := by
  simp only [smart_copy, SessionService.save_memory, hclaude]

/-! ### Claim C3: summarization failure is fatal -/

/-- **C3** (confirmed).  If the summarization call fails, `smart_copy`
returns failure (HTTP 500), the datastore is unchanged (no successful
insert), and neither the session's memories-cache read nor its
description-cache read changes (no invalidation of either entry occurs; the
only backend write the call may have performed is the embedding leg's own
`embed:v1:` save, a disjoint namespace). -/
theorem c3_summarization_failure_fatal (env : SCEnv) (hasCache : Bool)
    (st : RedisState) (calls : Nat) (db : List MemoryRecord)
    (req : SCRequest) (e : String)
    (hclaude : env.claudeResult = Except.error e) :
    (smart_copy env hasCache st calls db req).1 =
        SCResult.httpError 500
          ("Smart copy failed: " ++ ("Failed to save memory: " ++ e)) ∧
      (smart_copy env hasCache st calls db req).2.2.2 = db ∧
      (∀ net : NetOutcome,
        SessionCache.get_session_memories
            (smart_copy env hasCache st calls db req).2.1 net req.session_id =
          SessionCache.get_session_memories st net req.session_id) ∧
      (∀ net : NetOutcome,
        SessionCache.get_session_description
            (smart_copy env hasCache st calls db req).2.1 net req.session_id =
          SessionCache.get_session_description st net req.session_id) := by
  rw [smart_copy_failure_eq env hasCache st calls db req e hclaude]
  refine ⟨rfl, rfl, ?_, ?_⟩
  · intro net
    exact (create_embedding_session_reads env.embedEnv hasCache st calls
      req.text net req.session_id).1
  · intro net
    exact (create_embedding_session_reads env.embedEnv hasCache st calls
      req.text net req.session_id).2

/-- Witness for C3: summarization fails with `boom`; the call returns HTTP
500, persists nothing, and the session's cached memories and description
survive untouched. -/
theorem c3_summarization_failure_fatal_witness :
    let env : SCEnv := ⟨Except.error "boom",
      ⟨Except.ok [1, 2], NetOutcome.ok, NetOutcome.ok⟩,
      NetOutcome.ok, NetOutcome.ok⟩
    let st : RedisState :=
      { enabled := true,
        data := [(sessionMemoriesKey "s1", ⟨"mems", 50⟩),
                 (sessionDescriptionKey "s1", ⟨"desc", 50⟩)],
        now := 0 }
    let req : SCRequest := ⟨"text", "s1", "u1", some "mac-app"⟩
    (smart_copy env true st 0 [] req).1 =
        SCResult.httpError 500
          ("Smart copy failed: " ++ ("Failed to save memory: " ++ "boom")) ∧
      (smart_copy env true st 0 [] req).2.2.2 = [] ∧
      (∀ net : NetOutcome,
        SessionCache.get_session_memories
            (smart_copy env true st 0 [] req).2.1 net "s1" =
          SessionCache.get_session_memories st net "s1") ∧
      (∀ net : NetOutcome,
        SessionCache.get_session_description
            (smart_copy env true st 0 [] req).2.1 net "s1" =
          SessionCache.get_session_description st net "s1") :=
  c3_summarization_failure_fatal
    ⟨Except.error "boom", ⟨Except.ok [1, 2], NetOutcome.ok, NetOutcome.ok⟩,
      NetOutcome.ok, NetOutcome.ok⟩ true
    { enabled := true,
      data := [(sessionMemoriesKey "s1", ⟨"mems", 50⟩),
               (sessionDescriptionKey "s1", ⟨"desc", 50⟩)],
      now := 0 }
    0 [] ⟨"text", "s1", "u1", some "mac-app"⟩ "boom" rfl

/-! ### Claim C4: write-through invalidation on success -/

/-- **C4** (confirmed).  On a successful synchronous Smart Copy the record
`(sessionId, userId, originalText, processedText, embedding?)` is appended
to the datastore, and the returned cache state is exactly the description
invalidation applied after the memories invalidation of the post-persist
state — i.e. persist first, then the two deletions in that order — and with
a live backend both entries read as absent immediately after the call. -/
theorem c4_persist_then_invalidate (env : SCEnv) (hasCache : Bool)
    (st : RedisState) (calls : Nat) (db : List MemoryRecord)
    (req : SCRequest) (p : String)
    (hclaude : env.claudeResult = Except.ok p)
    (hE : st.enabled = true)
    (hm : env.netDelMem = NetOutcome.ok)
    (hd : env.netDelDesc = NetOutcome.ok) :
    (smart_copy env hasCache st calls db req).2.2.2 =
        db ++
          [{ id := db.length,
             session_id := req.session_id,
             user_id := req.user_id,
             original_text := req.text,
             processed_text := p,
             source := req.source,
             embedding := scEmbedding env hasCache st calls req }] ∧
      (smart_copy env hasCache st calls db req).2.1 =
        SessionCache.invalidate_session_description
          (SessionCache.invalidate_session_memories
            (EmbeddingService.create_embedding env.embedEnv hasCache st calls
              req.text).redis
            NetOutcome.ok req.session_id)
          NetOutcome.ok req.session_id ∧
      SessionCache.get_session_memories
        (smart_copy env hasCache st calls db req).2.1 NetOutcome.ok
        req.session_id = none ∧
      SessionCache.get_session_description
        (smart_copy env hasCache st calls db req).2.1 NetOutcome.ok
        req.session_id = none := by
  rw [smart_copy_success_eq env hasCache st calls db req p hclaude, hm, hd]
  have hE1 : (EmbeddingService.create_embedding env.embedEnv hasCache st calls
      req.text).redis.enabled = true := by
    rw [(create_embedding_preserves env.embedEnv hasCache st calls req.text).1,
      hE]
  have hE2 : ((RedisCache.delete
      (EmbeddingService.create_embedding env.embedEnv hasCache st calls
        req.text).redis
      NetOutcome.ok (sessionMemoriesKey req.session_id)).2).enabled = true := by
    rw [(delete_preserves _ NetOutcome.ok _).1, hE1]
  refine ⟨rfl, rfl, ?_, ?_⟩
  · unfold SessionCache.invalidate_session_description
      SessionCache.invalidate_session_memories
    unfold SessionCache.get_session_memories
    rw [get_after_delete_ne _ _ _
      (Ne.symm (sessionDescriptionKey_ne_sessionMemoriesKey req.session_id))]
    exact get_after_delete_self _ _ hE1
  · unfold SessionCache.invalidate_session_description
      SessionCache.invalidate_session_memories
    exact get_after_delete_self _ _ hE2

/-- Witness for C4: live empty backend, summarization returns `sum`,
embedding `[1, 2]`; the record lands in the datastore and both session cache
entries read absent afterwards. -/
theorem c4_persist_then_invalidate_witness :
    let env : SCEnv := ⟨Except.ok "sum",
      ⟨Except.ok [1, 2], NetOutcome.ok, NetOutcome.ok⟩,
      NetOutcome.ok, NetOutcome.ok⟩
    let st := RedisCache.initState true
    let req : SCRequest := ⟨"text", "s1", "u1", some "mac-app"⟩
    (smart_copy env true st 0 [] req).2.2.2 =
        [] ++
          [{ id := List.length ([] : List MemoryRecord),
             session_id := "s1",
             user_id := "u1",
             original_text := "text",
             processed_text := "sum",
             source := some "mac-app",
             embedding := scEmbedding env true st 0 req }] ∧
      (smart_copy env true st 0 [] req).2.1 =
        SessionCache.invalidate_session_description
          (SessionCache.invalidate_session_memories
            (EmbeddingService.create_embedding env.embedEnv true st 0
              "text").redis
            NetOutcome.ok "s1")
          NetOutcome.ok "s1" ∧
      SessionCache.get_session_memories
        (smart_copy env true st 0 [] req).2.1 NetOutcome.ok "s1" = none ∧
      SessionCache.get_session_description
        (smart_copy env true st 0 [] req).2.1 NetOutcome.ok "s1" = none :=
  c4_persist_then_invalidate
    ⟨Except.ok "sum", ⟨Except.ok [1, 2], NetOutcome.ok, NetOutcome.ok⟩,
      NetOutcome.ok, NetOutcome.ok⟩ true (RedisCache.initState true) 0 []
    ⟨"text", "s1", "u1", some "mac-app"⟩ "sum" rfl rfl rfl rfl

/-! ### Claim C6: embedding failure is non-fatal -/

/-- **C6** (confirmed).  If the embedding leg raises but summarization
succeeds, `smart_copy` still returns the success response and the persisted
record's embedding field is absent. -/
theorem c6_embedding_failure_nonfatal (env : SCEnv) (hasCache : Bool)
    (st : RedisState) (calls : Nat) (db : List MemoryRecord)
    (req : SCRequest) (p ee : String)
    (hclaude : env.claudeResult = Except.ok p)
    (hemb : (EmbeddingService.create_embedding env.embedEnv hasCache st calls
      req.text).result = Except.error ee) :
    (smart_copy env hasCache st calls db req).1 =
        SCResult.resp
          { status := "saved",
            memory_id := db.length,
            original_length := req.text.length,
            processed_length := p.length,
            processed_text := p } ∧
      (smart_copy env hasCache st calls db req).2.2.2 =
        db ++
          [{ id := db.length,
             session_id := req.session_id,
             user_id := req.user_id,
             original_text := req.text,
             processed_text := p,
             source := req.source,
             embedding := none }] := by
  have hsc : scEmbedding env hasCache st calls req = none := by
    unfold scEmbedding
    rw [hemb]
  rw [smart_copy_success_eq env hasCache st calls db req p hclaude, hsc]
  exact ⟨rfl, rfl⟩

/-- Witness for C6: the provider is down (and the cache holds nothing), yet
the call succeeds and persists a record with an absent embedding. -/
theorem c6_embedding_failure_nonfatal_witness :
    let env : SCEnv := ⟨Except.ok "sum",
      ⟨Except.error "down", NetOutcome.ok, NetOutcome.ok⟩,
      NetOutcome.ok, NetOutcome.ok⟩
    let st := RedisCache.initState true
    let req : SCRequest := ⟨"text", "s1", "u1", none⟩
    (smart_copy env true st 0 [] req).1 =
        SCResult.resp
          { status := "saved",
            memory_id := 0,
            original_length := ("text" : String).length,
            processed_length := ("sum" : String).length,
            processed_text := "sum" } ∧
      (smart_copy env true st 0 [] req).2.2.2 =
        [] ++
          [{ id := 0,
             session_id := "s1",
             user_id := "u1",
             original_text := "text",
             processed_text := "sum",
             source := none,
             embedding := none }] :=
  c6_embedding_failure_nonfatal
    ⟨Except.ok "sum", ⟨Except.error "down", NetOutcome.ok, NetOutcome.ok⟩,
      NetOutcome.ok, NetOutcome.ok⟩ true (RedisCache.initState true) 0 []
    ⟨"text", "s1", "u1", none⟩ "sum"
    ("Failed to generate embedding: " ++ "down") rfl rfl

/-! ### BackgroundTaskQueue (`task_queue.py`)

Small-step interleaving semantics.  A queued task is represented by what its
function will do when awaited: `none` = return normally, `some msg` = raise
an exception with message `msg`.  Each worker loop is a program counter:

  * `loopCheck` — at the `while self.is_running` test;
  * `waiting`   — suspended in `asyncio.wait_for(self.queue.get(), 1.0)`;
  * `running t` — executing the claimed task `t`;
  * `exited`    — left the loop.

`unfinished` is `asyncio.Queue._unfinished_tasks`: incremented by `put`,
decremented by `task_done`; `queue.join()` resumes only when it is zero.
`stop()` (lines 34-51) is the atomic flag write `is_running = False`
followed by `await self.queue.join()` (the `joining` phase), then
cancellation of the workers and `gather` (the `cancelling` phase), then
return (`returned`). -/

inductive WPC
  | loopCheck
  | waiting
  | running (task : Option String)
  | exited
deriving DecidableEq, Repr

inductive StopPhase
  | idle
  | joining
  | cancelling
  | returned
deriving DecidableEq, Repr

structure QState where
  isRunning : Bool
  queue : List (Option String)
  unfinished : Nat
  workers : List WPC
  phase : StopPhase
  log : List String
deriving DecidableEq, Repr

/-- `await task_func(*args, **kwargs)` — the task body either returns or
raises. -/
def taskRun : Option String → Except String Unit
  | none => Except.ok ()
  | some msg => Except.error msg

/-- One worker iteration after the claimed task's body finishes
(`task_queue.py` 97-104): the `try` block logs completion, the
`except Exception` block catches and logs the failure, and the `finally`
block calls `self.queue.task_done()` in both cases; the loop then returns to
the `while` test. -/
def afterFinish (s : QState) (i : Nat) (t : Option String) : QState :=
  let entry :=
    match taskRun t with
    | Except.ok _ => "completed task"
    | Except.error e => "task failed: " ++ e
  { s with
    workers := s.workers.set i WPC.loopCheck,
    unfinished := s.unfinished - 1,
    log := s.log ++ [entry] }

/-- The `while self.is_running` test (`task_queue.py` 82): proceed to the
queue wait, or leave the loop. -/
def afterCheck (s : QState) (i : Nat) : QState :=
  { s with
    workers := s.workers.set i
      (if s.isRunning then WPC.waiting else WPC.exited) }

/-- Interleaving steps of workers, callers of `enqueue`, and the `stop()`
coroutine. -/
inductive QStep : QState → QState → Prop
  | check (s : QState) (i : Nat) :
      s.workers.get? i = some WPC.loopCheck → QStep s (afterCheck s i)
  | claim (s : QState) (i : Nat) (t : Option String) (rest : List (Option String)) :
      s.workers.get? i = some WPC.waiting →
      s.queue = t :: rest →
      QStep s { s with workers := s.workers.set i (WPC.running t),
                       queue := rest }
  | timeout (s : QState) (i : Nat) :
      s.workers.get? i = some WPC.waiting →
      QStep s { s with workers := s.workers.set i WPC.loopCheck }
  | finish (s : QState) (i : Nat) (t : Option String) :
      s.workers.get? i = some (WPC.running t) →
      QStep s (afterFinish s i t)
  | enqueue (s : QState) (t : Option String) :
      QStep s { s with queue := s.queue ++ [t],
                       unfinished := s.unfinished + 1 }
  | stopCall (s : QState) :
      s.isRunning = true → s.phase = StopPhase.idle →
      QStep s { s with isRunning := false, phase := StopPhase.joining }
  | joinDone (s : QState) :
      s.phase = StopPhase.joining → s.unfinished = 0 →
      QStep s { s with phase := StopPhase.cancelling }
  | cancelWorker (s : QState) (i : Nat) :
      s.phase = StopPhase.cancelling →
      s.workers.get? i = some WPC.waiting →
      QStep s { s with workers := s.workers.set i WPC.exited }
  | stopReturn (s : QState) :
      s.phase = StopPhase.cancelling →
      (∀ w ∈ s.workers, w = WPC.exited) →
      QStep s { s with phase := StopPhase.returned }

/-- Reflexive-transitive closure of `QStep`. -/
inductive QReach : QState → QState → Prop
  | refl (s : QState) : QReach s s
  | step (s t u : QState) : QReach s t → QStep t u → QReach s u

/-- Number of tasks a worker can still claim once `is_running` is false:
only a worker parked in the queue wait can claim (one more) task; a worker
at the `while` test exits, and a running worker returns to the test after
its current task. -/
def pcCap : WPC → Nat
  | WPC.waiting => 1
  | _ => 0

/-- Number of claimed-but-unfinished tasks a worker holds. -/
def pcRun : WPC → Nat
  | WPC.running _ => 1
  | _ => 0

def sumF (f : WPC → Nat) (l : List WPC) : Nat := (l.map f).sum

theorem sumF_set (f : WPC → Nat) (l : List WPC) (i : Nat) (w w' : WPC)
    (h : l.get? i = some w) :
    sumF f (l.set i w') + f w = sumF f l + f w' := by
  induction l generalizing i with
  | nil => cases h
  | cons a as ih =>
    cases i with
    | zero =>
      simp only [List.get?] at h
      cases h
      simp [sumF, List.set]
      omega
    | succ n =>
      simp only [List.get?] at h
      have := ih n h
      simp [sumF, List.set] at this ⊢
      omega

/-- The invariant of the blocked `stop()` call: the flag is down, `stop` is
parked in `queue.join()`, the unfinished count is the queued tasks plus the
claimed ones, and strictly more tasks are queued than the workers can ever
claim again. -/
def StopInv (s : QState) : Prop :=
  s.isRunning = false ∧ s.phase = StopPhase.joining ∧
    s.unfinished = s.queue.length + sumF pcRun s.workers ∧
    sumF pcCap s.workers + 1 ≤ s.queue.length

theorem stopInv_step (s s' : QState) (h : StopInv s) (hs : QStep s s') :
    StopInv s' := by
  obtain ⟨hR, hP, hA, hB⟩ := h
  cases hs with
  | check i hw =>
    have hcap := sumF_set pcCap s.workers i WPC.loopCheck
      (if s.isRunning then WPC.waiting else WPC.exited) hw
    have hrun := sumF_set pcRun s.workers i WPC.loopCheck
      (if s.isRunning then WPC.waiting else WPC.exited) hw
    rw [hR] at hcap hrun
    simp only [Bool.false_eq_true, if_false, pcCap, pcRun] at hcap hrun
    refine ⟨by simp [afterCheck, hR], by simp [afterCheck, hP], ?_, ?_⟩ <;>
      simp only [afterCheck, hR, Bool.false_eq_true, if_false] <;>
      omega
  | claim i t rest hw hq =>
    have hcap := sumF_set pcCap s.workers i WPC.waiting (WPC.running t) hw
    have hrun := sumF_set pcRun s.workers i WPC.waiting (WPC.running t) hw
    simp [pcCap, pcRun] at hcap hrun
    refine ⟨hR, hP, ?_, ?_⟩ <;>
      simp only [] <;> rw [hq] at hA hB <;> simp at hA hB <;> omega
  | timeout i hw =>
    have hcap := sumF_set pcCap s.workers i WPC.waiting WPC.loopCheck hw
    have hrun := sumF_set pcRun s.workers i WPC.waiting WPC.loopCheck hw
    simp [pcCap, pcRun] at hcap hrun
    exact ⟨hR, hP, by simp only []; omega, by simp only []; omega⟩
  | finish i t hw =>
    have hcap := sumF_set pcCap s.workers i (WPC.running t) WPC.loopCheck hw
    have hrun := sumF_set pcRun s.workers i (WPC.running t) WPC.loopCheck hw
    simp [pcCap, pcRun] at hcap hrun
    refine ⟨hR, hP, ?_, ?_⟩ <;> simp only [afterFinish] <;> omega
  | enqueue t =>
    refine ⟨hR, hP, ?_, ?_⟩ <;> simp only [] <;> simp <;> omega
  | stopCall hrun hphase =>
    rw [hR] at hrun
    cases hrun
  | joinDone hphase hz =>
    rw [hz] at hA
    omega
  | cancelWorker i hphase hw =>
    rw [hP] at hphase
    cases hphase
  | stopReturn hphase hall =>
    rw [hP] at hphase
    cases hphase

theorem stopInv_reach (s0 s : QState) (h0 : StopInv s0)
    (hr : QReach s0 s) : StopInv s := by
  induction hr with
  | refl => exact h0
  | step t u hr1 hstep ih => exact stopInv_step t u ih hstep

/-- The queue right after `start()`: both workers at the `while` test. -/
def qInitState : QState :=
  { isRunning := true, queue := [], unfinished := 0,
    workers := [WPC.loopCheck, WPC.loopCheck], phase := StopPhase.idle,
    log := [] }

/-- The configuration reached by: both workers park in the queue wait, a
caller enqueues three tasks, and `stop()` runs its synchronous prefix
(`is_running = False`) and suspends in `queue.join()`. -/
def stuckStopState : QState :=
  { isRunning := false, queue := [none, none, none], unfinished := 3,
    workers := [WPC.waiting, WPC.waiting], phase := StopPhase.joining,
    log := [] }

theorem reach_stuckStopState : QReach qInitState stuckStopState := by
  have h1 := QReach.step _ _ _ (QReach.refl qInitState)
    (QStep.check qInitState 0 rfl)
  have h2 := QReach.step _ _ _ h1 (QStep.check _ 1 rfl)
  have h3 := QReach.step _ _ _ h2 (QStep.enqueue _ none)
  have h4 := QReach.step _ _ _ h3 (QStep.enqueue _ none)
  have h5 := QReach.step _ _ _ h4 (QStep.enqueue _ none)
  have h6 := QReach.step _ _ _ h5 (QStep.stopCall _ rfl rfl)
  exact h6

/-! ### Claim C2: stop() drains the queue, then cancels -/

/-- **C2** (code bug).  `stop()` sets `is_running = False` *before* awaiting
`queue.join()`, so each worker claims at most one further task and then
leaves its loop.  The configuration `stuckStopState` — three tasks enqueued,
two idle workers, `stop()` just past the flag write and suspended in
`join()` — is reachable from a started queue; from it, *every* reachable
state still has `stop()` parked in `join()` (so the workers are never
cancelled and `stop()` never returns) while at least one enqueued task
remains queued and unfinished forever.  The claim's drain-then-cancel
behaviour therefore fails: the queue is never drained and `stop()` never
completes. -/
theorem c2_stop_never_drains :
    QReach qInitState stuckStopState ∧
      ∀ s : QState, QReach stuckStopState s →
        s.phase = StopPhase.joining ∧ 1 ≤ s.queue.length ∧
          1 ≤ s.unfinished := by
  refine ⟨reach_stuckStopState, ?_⟩
  intro s hr
  have hinv : StopInv stuckStopState := by
    refine ⟨rfl, rfl, ?_, ?_⟩ <;> simp [stuckStopState, sumF, pcRun, pcCap]
  have h := stopInv_reach stuckStopState s hinv hr
  obtain ⟨_, hP, hA, hB⟩ := h
  exact ⟨hP, by omega, by omega⟩

/-- Witness for C2: the blocked configuration itself satisfies the
conclusion. -/
theorem c2_stop_never_drains_witness :
    QReach qInitState stuckStopState ∧
      (stuckStopState.phase = StopPhase.joining ∧
        1 ≤ stuckStopState.queue.length ∧ 1 ≤ stuckStopState.unfinished) :=
  ⟨c2_stop_never_drains.1,
    c2_stop_never_drains.2 stuckStopState (QReach.refl stuckStopState)⟩

/-! ### Claim C9: task exceptions are contained at the worker boundary -/

theorem get?_set_self (l : List WPC) (i : Nat) (w w' : WPC)
    (h : l.get? i = some w) : (l.set i w').get? i = some w' := by
  induction l generalizing i with
  | nil => cases h
  | cons a as ih =>
    cases i with
    | zero => rfl
    | succ n =>
      simp only [List.get?] at h
      simp only [List.set, List.get?]
      exact ih n h

/-- A concrete run for the continuation part of C9: worker 0 is executing a
task that raises `boom` while another (healthy) task sits in the queue. -/
def failThenNextState : QState :=
  { isRunning := true, queue := [none], unfinished := 2,
    workers := [WPC.running (some "boom")], phase := StopPhase.idle,
    log := [] }

/-- **C9** (confirmed).  An exception raised by a task's function is caught
at the worker boundary: finishing the raising task is an ordinary step of
the system (no crashed state); afterwards the worker is back at the `while`
test (it survives), `task_done` has run (the `finally` block), the queue and
the control state are untouched, the failure is logged, and the resulting
state differs from a successful completion of the same slot *only* in the
log line — in particular nothing an enqueuing caller can observe signals the
failure.  Moreover, from a state where a worker is executing a raising task
with another task queued, execution continues and the next task completes
(the log records the failure, then the completion, and the unfinished count
drains to zero). -/
theorem c9_task_exception_contained (s : QState) (i : Nat) (msg : String)
    (h : s.workers.get? i = some (WPC.running (some msg))) :
    QStep s (afterFinish s i (some msg)) ∧
      (afterFinish s i (some msg)).workers.get? i = some WPC.loopCheck ∧
      (afterFinish s i (some msg)).unfinished = s.unfinished - 1 ∧
      (afterFinish s i (some msg)).queue = s.queue ∧
      (afterFinish s i (some msg)).isRunning = s.isRunning ∧
      (afterFinish s i (some msg)).phase = s.phase ∧
      (afterFinish s i (some msg)).log =
        s.log ++ ["task failed: " ++ msg] ∧
      afterFinish s i (some msg) =
        { afterFinish s i none with
          log := s.log ++ ["task failed: " ++ msg] } ∧
      (∃ sEnd : QState,
        QReach failThenNextState sEnd ∧ sEnd.unfinished = 0 ∧
          sEnd.log = ["task failed: " ++ "boom", "completed task"]) := by
  refine ⟨QStep.finish s i (some msg) h, get?_set_self s.workers i _ _ h,
    rfl, rfl, rfl, rfl, rfl, rfl, ?_⟩
  have h1 := QReach.step _ _ _ (QReach.refl failThenNextState)
    (QStep.finish failThenNextState 0 (some "boom") rfl)
  have h2 := QReach.step _ _ _ h1 (QStep.check _ 0 rfl)
  have h3 := QReach.step _ _ _ h2 (QStep.claim _ 0 none [] rfl rfl)
  have h4 := QReach.step _ _ _ h3 (QStep.finish _ 0 none rfl)
  exact ⟨_, h4, rfl, rfl⟩

/-- Witness for C9 at the concrete configuration `failThenNextState`. -/
theorem c9_task_exception_contained_witness :
    QStep failThenNextState (afterFinish failThenNextState 0 (some "boom")) ∧
      (afterFinish failThenNextState 0 (some "boom")).workers.get? 0 =
        some WPC.loopCheck ∧
      (afterFinish failThenNextState 0 (some "boom")).unfinished =
        failThenNextState.unfinished - 1 ∧
      (afterFinish failThenNextState 0 (some "boom")).queue =
        failThenNextState.queue ∧
      (afterFinish failThenNextState 0 (some "boom")).isRunning =
        failThenNextState.isRunning ∧
      (afterFinish failThenNextState 0 (some "boom")).phase =
        failThenNextState.phase ∧
      (afterFinish failThenNextState 0 (some "boom")).log =
        failThenNextState.log ++ ["task failed: " ++ "boom"] ∧
      afterFinish failThenNextState 0 (some "boom") =
        { afterFinish failThenNextState 0 none with
          log := failThenNextState.log ++ ["task failed: " ++ "boom"] } ∧
      (∃ sEnd : QState,
        QReach failThenNextState sEnd ∧ sEnd.unfinished = 0 ∧
          sEnd.log = ["task failed: " ++ "boom", "completed task"]) :=
  c9_task_exception_contained failThenNextState 0 "boom" rfl
